import Mathlib

/-!
Verification of the DHT22 single-wire sensor decoder (src/src/bin/main.rs).

The digital line is modelled as the sequence of levels the decoder observes:
a function `Line : Nat → Bool` (`true` = high), where the n-th call to
`is_high`/`is_low` reads entry n.  Every externally visible action of the
decoder (driving the line, sleeping, sampling, writing a log line) is
recorded in an event trace, so ordering and reporting claims are statable.
The `f32` conversions of the Rust code divide a 16-bit integer by `10.0`;
they are modelled over `ℚ`.
-/

namespace Foat

/-- Errors of the decoder, mirroring the Rust enum `DhtError`. -/
inductive DhtError where
  | timeout
  | checksumError
deriving DecidableEq, Repr

/-- Externally visible actions of the program, in the order they are
performed: driving the line, blocking delays, sampling the line, and the
log lines written with `info!`. -/
inductive Event where
  | setLow
  | setHigh
  | delayMillis (n : Nat)
  | delayMicros (n : Nat)
  | sample (level : Bool)
  | logChecksumError (sum checksum : Nat)
  | logTemperature (t : ℚ)
  | logHumidity (h : ℚ)
  | logReadingFailed (e : DhtError)
  | netPoll
deriving DecidableEq, Repr

/-- The single-wire line, as the sequence of levels observed by successive
samples (`true` = high). -/
abbrev Line := Nat → Bool

/-- Decoder state: the index of the next sample to be read from the line,
and the trace of events performed so far. -/
structure DhtState where
  idx : Nat
  trace : List Event
deriving DecidableEq, Repr

/-- Record an event. -/
def emit (e : Event) (s : DhtState) : DhtState := ⟨s.idx, s.trace ++ [e]⟩

/-- One call to `is_high`/`is_low`: read the next level of the line. -/
def sampleLine (L : Line) (s : DhtState) : Bool × DhtState :=
  (L s.idx, ⟨s.idx + 1, s.trace ++ [Event.sample (L s.idx)]⟩)

/-- Body of `wait_for_state`, with the remaining iteration budget explicit:
check the line once per iteration, succeed on the target level, otherwise
sleep 1 μs and retry. -/
def wait_for_state_aux (L : Line) (target : Bool) :
    Nat → DhtState → Except DhtError Unit × DhtState
  | 0, s => (Except.error DhtError.timeout, s)
  | fuel + 1, s =>
    let p := sampleLine L s
    if p.1 = target then (Except.ok (), p.2)
    else wait_for_state_aux L target fuel (emit (Event.delayMicros 1) p.2)

/-- `wait_for_state`: bounded busy-poll of 10,000 iterations. -/
def wait_for_state (L : Line) (target : Bool) (s : DhtState) :
    Except DhtError Unit × DhtState :=
  wait_for_state_aux L target 10000 s

/-- Body of the `for n in 0..8` loop of `read_byte`: per bit, wait for the
line to rise, sleep 30 μs, sample the level, set bit `7 - (n % 8)` if high,
wait for the line to fall. -/
def read_byte_aux (L : Line) : Nat → Nat → Nat → DhtState → Except DhtError Nat × DhtState
  | 0, _, byte, s => (Except.ok byte, s)
  | fuel + 1, n, byte, s =>
    match wait_for_state L true s with
    | (Except.error e, s1) => (Except.error e, s1)
    | (Except.ok _, s1) =>
      let s2 := emit (Event.delayMicros 30) s1
      let p := sampleLine L s2
      let byte2 := if p.1 then byte ||| (1 <<< (7 - n % 8)) else byte
      match wait_for_state L false p.2 with
      | (Except.error e, s3) => (Except.error e, s3)
      | (Except.ok _, s3) => read_byte_aux L fuel (n + 1) byte2 s3

/-- `read_byte`: assemble 8 bits, most significant first. -/
def read_byte (L : Line) (s : DhtState) : Except DhtError Nat × DhtState :=
  read_byte_aux L 8 0 0 s

/-- `read_sensor`: start pulse (18 ms low, release high, 48 μs), sensor
handshake (wait high, wait low), five byte reads, wrapping-add checksum,
conversion to physical units, and the two success log lines.  On success it
returns only `()`; the converted values appear solely in the trace. -/
def read_sensor (L : Line) (s : DhtState) : Except DhtError Unit × DhtState :=
  let s0 := emit (Event.delayMicros 48)
    (emit Event.setHigh (emit (Event.delayMillis 18) (emit Event.setLow s)))
  match wait_for_state L true s0 with
  | (Except.error e, sE) => (Except.error e, sE)
  | (Except.ok _, s1) =>
    match wait_for_state L false s1 with
    | (Except.error e, sE) => (Except.error e, sE)
    | (Except.ok _, s2) =>
      match read_byte L s2 with
      | (Except.error e, sE) => (Except.error e, sE)
      | (Except.ok humidity_high, s3) =>
        match read_byte L s3 with
        | (Except.error e, sE) => (Except.error e, sE)
        | (Except.ok humidity_low, s4) =>
          match read_byte L s4 with
          | (Except.error e, sE) => (Except.error e, sE)
          | (Except.ok temperature_high, s5) =>
            match read_byte L s5 with
            | (Except.error e, sE) => (Except.error e, sE)
            | (Except.ok temperature_low, s6) =>
              match read_byte L s6 with
              | (Except.error e, sE) => (Except.error e, sE)
              | (Except.ok checksum, s7) =>
                let humidity_value := (humidity_high <<< 8) ||| humidity_low
                let humidity_percentage : ℚ := (humidity_value : ℚ) / 10
                let temperature_value := (temperature_high <<< 8) ||| temperature_low
                let temperature_celsius : ℚ := (temperature_value : ℚ) / 10
                let sum := (((humidity_high + humidity_low) % 256 + temperature_high) % 256
                  + temperature_low) % 256
                if sum ≠ checksum then
                  (Except.error DhtError.checksumError,
                    emit (Event.logChecksumError sum checksum) s7)
                else
                  (Except.ok (),
                    emit (Event.logHumidity humidity_percentage)
                      (emit (Event.logTemperature temperature_celsius) s7))

/-- The state after the host start pulse of `read_sensor` (its first four
statements): drive low, hold 18 ms, release high, hold 48 μs. -/
def startState (s : DhtState) : DhtState :=
  emit (Event.delayMicros 48)
    (emit Event.setHigh (emit (Event.delayMillis 18) (emit Event.setLow s)))

/-- The acquisition phase of `read_sensor` in isolation: the two handshake
waits followed by the five byte reads, returning the raw frame
(humidity high, humidity low, temperature high, temperature low, checksum).
Used to state which bytes a run of `read_sensor` received. -/
def readFrameBytes (L : Line) (s : DhtState) :
    Except DhtError (Nat × Nat × Nat × Nat × Nat) × DhtState :=
  match wait_for_state L true s with
  | (Except.error e, sE) => (Except.error e, sE)
  | (Except.ok _, s1) =>
    match wait_for_state L false s1 with
    | (Except.error e, sE) => (Except.error e, sE)
    | (Except.ok _, s2) =>
      match read_byte L s2 with
      | (Except.error e, sE) => (Except.error e, sE)
      | (Except.ok b0, s3) =>
        match read_byte L s3 with
        | (Except.error e, sE) => (Except.error e, sE)
        | (Except.ok b1, s4) =>
          match read_byte L s4 with
          | (Except.error e, sE) => (Except.error e, sE)
          | (Except.ok b2, s5) =>
            match read_byte L s5 with
            | (Except.error e, sE) => (Except.error e, sE)
            | (Except.ok b3, s6) =>
              match read_byte L s6 with
              | (Except.error e, sE) => (Except.error e, sE)
              | (Except.ok ck, s7) => (Except.ok (b0, b1, b2, b3, ck), s7)

/-- One iteration of the read loop in `main`: sleep 2000 ms, call
`read_sensor`, log the error kind on failure (the success arm does
nothing), then poll the network stack. -/
def loop_iter (L : Line) (s : DhtState) : DhtState :=
  let s1 := emit (Event.delayMillis 2000) s
  match read_sensor L s1 with
  | (Except.ok _, s2) => emit Event.netPoll s2
  | (Except.error e, s2) => emit Event.netPoll (emit (Event.logReadingFailed e) s2)

/-- The read loop of `main`, observed for `n` iterations. -/
def read_loop (L : Line) (s : DhtState) : Nat → DhtState
  | 0 => s
  | n + 1 => loop_iter L (read_loop L s n)

/-- The bits of a byte, most significant first, as transmitted by the
sensor. -/
def byteBits (b : Nat) : List Bool :=
  [b.testBit 7, b.testBit 6, b.testBit 5, b.testBit 4,
   b.testBit 3, b.testBit 2, b.testBit 1, b.testBit 0]

/-- The levels the decoder samples for a bit sequence when every transition
is immediate: per bit, the rise is seen at once, the 30 μs sample reads the
bit's value, and the fall is seen at once. -/
def encodeBits : List Bool → List Bool
  | [] => []
  | b :: bs => true :: b :: false :: encodeBits bs

/-- The sample sequence of one transmitted byte. -/
def byteSamples (b : Nat) : List Bool := encodeBits (byteBits b)

/-- The sample sequence of a full frame: the handshake (high then low)
followed by the five bytes. -/
def frameSamples (b0 b1 b2 b3 c : Nat) : List Bool :=
  true :: false ::
    (byteSamples b0 ++ (byteSamples b1 ++ (byteSamples b2 ++ (byteSamples b3 ++ byteSamples c))))

/-- `samplesAre L i bs` holds when the line presents exactly the levels
`bs` starting at sample index `i`. -/
def samplesAre (L : Line) : Nat → List Bool → Bool
  | _, [] => true
  | i, b :: bs => (L i == b) && samplesAre L (i + 1) bs

/-- The bit accumulation of `read_byte`'s loop, starting at loop index `n`
with accumulator `byte`. -/
def accumBits : Nat → Nat → List Bool → Nat
  | _, byte, [] => byte
  | n, byte, b :: bs =>
    accumBits (n + 1) (if b then byte ||| (1 <<< (7 - n % 8)) else byte) bs

/-- The events `read_byte` performs for a bit sequence with immediate
transitions: per bit, see the rise, sleep 30 μs, sample the value, see the
fall. -/
def bitsEvents : List Bool → List Event
  | [] => []
  | b :: bs =>
    Event.sample true :: Event.delayMicros 30 :: Event.sample b :: Event.sample false ::
      bitsEvents bs

/-- The events of one byte read with immediate transitions. -/
def byteEvents (b : Nat) : List Event := bitsEvents (byteBits b)

/-- The events of `k` failed polls of `wait_for_state`: each reads the
wrong level and sleeps 1 μs. -/
def missEvents (target : Bool) : Nat → List Event
  | 0 => []
  | k + 1 => Event.sample (!target) :: Event.delayMicros 1 :: missEvents target k

/-- Events that report a converted reading (the two success log lines). -/
def isReadingLog : Event → Bool
  | Event.logTemperature _ => true
  | Event.logHumidity _ => true
  | _ => false

/-- A concrete line built from a finite list of levels (low once the list
is exhausted). -/
def lineOf (bs : List Bool) : Line := fun j => bs.getD j false

/-- The spec's worked example: bytes 0x02 0x8A 0x01 0x05 with matching
checksum 0x92. -/
def goodLine : Line := lineOf (frameSamples 2 138 1 5 146)

/-- The same data bytes with the wrong checksum byte 0x93. -/
def badLine : Line := lineOf (frameSamples 2 138 1 5 147)

/-! ### Basic lemmas about the line and the level waiter -/

lemma samplesAre_cons {L : Line} {i : Nat} {b : Bool} {bs : List Bool} :
    samplesAre L i (b :: bs) = true ↔ L i = b ∧ samplesAre L (i + 1) bs = true := by
  simp [samplesAre]

lemma samplesAre_append {L : Line} (xs : List Bool) :
    ∀ (i : Nat) (ys : List Bool),
      samplesAre L i (xs ++ ys) = true ↔
        samplesAre L i xs = true ∧ samplesAre L (i + xs.length) ys = true := by
  induction xs with
  | nil => intro i ys; simp [samplesAre]
  | cons b bs ih =>
    intro i ys
    simp only [List.cons_append, samplesAre_cons, ih (i + 1) ys, List.length_cons]
    constructor
    · rintro ⟨h1, h2, h3⟩
      refine ⟨⟨h1, h2⟩, ?_⟩
      have : i + 1 + bs.length = i + (bs.length + 1) := by omega
      rwa [this] at h3
    · rintro ⟨⟨h1, h2⟩, h3⟩
      refine ⟨h1, h2, ?_⟩
      have : i + 1 + bs.length = i + (bs.length + 1) := by omega
      rwa [this]

lemma samplesAre_split {L : Line} {i : Nat} {xs ys : List Bool}
    (h : samplesAre L i (xs ++ ys) = true) :
    samplesAre L i xs = true ∧ samplesAre L (i + xs.length) ys = true :=
  (samplesAre_append xs i ys).mp h

/-- If the line is already at the target level, `wait_for_state` succeeds
on its first poll, consuming one sample. -/
lemma wait_hit (L : Line) (target : Bool) (i : Nat) (tr : List Event)
    (h : L i = target) :
    wait_for_state L target ⟨i, tr⟩ =
      (Except.ok (), ⟨i + 1, tr ++ [Event.sample target]⟩) := by
  show wait_for_state_aux L target (9999 + 1) ⟨i, tr⟩ = _
  simp [wait_for_state_aux, sampleLine, h]

lemma wait_aux_timeout (L : Line) (target : Bool) :
    ∀ (fuel i : Nat) (tr : List Event),
      (∀ j, j < fuel → L (i + j) ≠ target) →
      wait_for_state_aux L target fuel ⟨i, tr⟩ =
        (Except.error DhtError.timeout, ⟨i + fuel, tr ++ missEvents target fuel⟩) := by
  intro fuel
  induction fuel with
  | zero => intro i tr _; simp [wait_for_state_aux, missEvents]
  | succ k ih =>
    intro i tr h
    have h0 : L i ≠ target := by
      have := h 0 (by omega); simpa using this
    have hval : L i = !target := by
      cases hL : L i <;> cases target <;> simp_all
    have hrec := ih (i + 1) (tr ++ [Event.sample (!target)] ++ [Event.delayMicros 1])
      (by intro j hj; have := h (j + 1) (by omega); rwa [show i + (j + 1) = i + 1 + j by omega] at this)
    simp only [wait_for_state_aux, sampleLine, emit, hval]
    rw [if_neg (by cases target <;> simp)]
    rw [hrec]
    simp [missEvents, List.append_assoc]
    omega

lemma wait_aux_success (L : Line) (target : Bool) :
    ∀ (fuel k i : Nat) (tr : List Event),
      k < fuel →
      (∀ j, j < k → L (i + j) ≠ target) →
      L (i + k) = target →
      wait_for_state_aux L target fuel ⟨i, tr⟩ =
        (Except.ok (), ⟨i + k + 1, tr ++ missEvents target k ++ [Event.sample target]⟩) := by
  intro fuel
  induction fuel with
  | zero => intro k i tr hk; omega
  | succ f ih =>
    intro k i tr hk hmiss hhit
    cases k with
    | zero =>
      have h0 : L i = target := by simpa using hhit
      simp [wait_for_state_aux, sampleLine, h0, missEvents]
    | succ k0 =>
      have h0 : L i ≠ target := by
        have := hmiss 0 (by omega); simpa using this
      have hval : L i = !target := by
        cases hL : L i <;> cases target <;> simp_all
      have hrec := ih k0 (i + 1) (tr ++ [Event.sample (!target)] ++ [Event.delayMicros 1])
        (by omega)
        (by intro j hj; have := hmiss (j + 1) (by omega)
            rwa [show i + (j + 1) = i + 1 + j by omega] at this)
        (by rwa [show i + 1 + k0 = i + (k0 + 1) by omega])
      simp only [wait_for_state_aux, sampleLine, emit, hval]
      rw [if_neg (by cases target <;> simp)]
      rw [hrec]
      have hidx : i + 1 + k0 + 1 = i + (k0 + 1) + 1 := by omega
      simp [missEvents, List.append_assoc, hidx]

/-- The only error `wait_for_state` can produce is `timeout`. -/
lemma wait_aux_error (L : Line) (target : Bool) :
    ∀ (fuel : Nat) (s : DhtState) (e : DhtError) (sE : DhtState),
      wait_for_state_aux L target fuel s = (Except.error e, sE) → e = DhtError.timeout := by
  intro fuel
  induction fuel with
  | zero =>
    intro s e sE h
    simp [wait_for_state_aux] at h
    exact h.1.symm
  | succ f ih =>
    intro s e sE h
    simp only [wait_for_state_aux, sampleLine] at h
    split at h
    · simp at h
    · exact ih _ e sE h

lemma wait_error (L : Line) (target : Bool) (s : DhtState) (e : DhtError) (sE : DhtState)
    (h : wait_for_state L target s = (Except.error e, sE)) : e = DhtError.timeout :=
  wait_aux_error L target 10000 s e sE h

/-- `wait_for_state` never writes a reading log line. -/
lemma wait_aux_filter (L : Line) (target : Bool) :
    ∀ (fuel : Nat) (s : DhtState),
      ((wait_for_state_aux L target fuel s).2.trace).filter isReadingLog =
        s.trace.filter isReadingLog := by
  intro fuel
  induction fuel with
  | zero => intro s; simp [wait_for_state_aux]
  | succ f ih =>
    intro s
    simp only [wait_for_state_aux, sampleLine]
    split
    · simp [isReadingLog]
    · rw [ih]
      simp [emit, isReadingLog]

lemma wait_filter (L : Line) (target : Bool) (s : DhtState) :
    ((wait_for_state L target s).2.trace).filter isReadingLog =
      s.trace.filter isReadingLog :=
  wait_aux_filter L target 10000 s

/-! ### Lemmas about the byte reader -/

lemma accumBits_cons (n byte : Nat) (b : Bool) (bs : List Bool) :
    accumBits n byte (b :: bs) =
      accumBits (n + 1) (if b then byte ||| (1 <<< (7 - n % 8)) else byte) bs := rfl

set_option maxRecDepth 4000 in
/-- Reassembling the transmitted bits of a byte gives the byte back. -/
lemma accum_byteBits : ∀ b : Nat, b < 256 → accumBits 0 0 (byteBits b) = b := by decide

/-- `read_byte` over a bit sequence with immediate transitions: it returns
the accumulated bits and performs, per bit, a rise sample, the 30 μs
sampling offset, the value sample, and a fall sample. -/
lemma read_byte_aux_encoded (L : Line) :
    ∀ (bits : List Bool) (n byte i : Nat) (tr : List Event),
      samplesAre L i (encodeBits bits) = true →
      read_byte_aux L bits.length n byte ⟨i, tr⟩ =
        (Except.ok (accumBits n byte bits),
         ⟨i + 3 * bits.length, tr ++ bitsEvents bits⟩) := by
  intro bits
  induction bits with
  | nil =>
    intro n byte i tr _
    simp [read_byte_aux, accumBits, bitsEvents]
  | cons b bs ih =>
    intro n byte i tr hs
    rw [show encodeBits (b :: bs) = true :: b :: false :: encodeBits bs from rfl] at hs
    obtain ⟨hT, hs⟩ := samplesAre_cons.mp hs
    obtain ⟨hB, hs⟩ := samplesAre_cons.mp hs
    obtain ⟨hF, hs⟩ := samplesAre_cons.mp hs
    have hw1 := wait_hit L true i tr hT
    have hw2 : wait_for_state L false
        (sampleLine L (emit (Event.delayMicros 30) ⟨i + 1, tr ++ [Event.sample true]⟩)).2 =
        (Except.ok (), ⟨i + 1 + 1 + 1,
          tr ++ [Event.sample true] ++ [Event.delayMicros 30]
            ++ [Event.sample (L (i + 1))] ++ [Event.sample false]⟩) :=
      wait_hit L false (i + 1 + 1)
        (tr ++ [Event.sample true] ++ [Event.delayMicros 30] ++ [Event.sample (L (i + 1))]) hF
    have hp1 : (sampleLine L
        (emit (Event.delayMicros 30) ⟨i + 1, tr ++ [Event.sample true]⟩)).1 = b := hB
    have hrec := ih (n + 1) (if b then byte ||| (1 <<< (7 - n % 8)) else byte)
      (i + 1 + 1 + 1)
      (tr ++ [Event.sample true] ++ [Event.delayMicros 30] ++ [Event.sample b]
        ++ [Event.sample false]) hs
    simp only [List.length_cons, read_byte_aux, hw1]
    simp only [hw2]
    simp only [hp1, hB]
    simp only [hrec]
    simp only [accumBits_cons, bitsEvents, Prod.mk.injEq, Except.ok.injEq,
      DhtState.mk.injEq, List.cons_append, List.singleton_append, List.append_assoc,
      List.nil_append, true_and, and_true]
    omega

/-- The only error `read_byte` can produce is `timeout`. -/
lemma read_byte_aux_error (L : Line) :
    ∀ (fuel n byte : Nat) (s : DhtState) (e : DhtError) (sE : DhtState),
      read_byte_aux L fuel n byte s = (Except.error e, sE) → e = DhtError.timeout := by
  intro fuel
  induction fuel with
  | zero =>
    intro n byte s e sE h
    simp [read_byte_aux] at h
  | succ f ih =>
    intro n byte s e sE h
    simp only [read_byte_aux] at h
    rcases hw1 : wait_for_state L true s with ⟨r1, s1⟩
    rw [hw1] at h
    cases r1 with
    | error e1 =>
      simp at h
      exact h.1 ▸ wait_error L true s e1 s1 hw1
    | ok u1 =>
      simp only [] at h
      rcases hw2 : wait_for_state L false (sampleLine L (emit (Event.delayMicros 30) s1)).2
        with ⟨r2, s3⟩
      rw [hw2] at h
      cases r2 with
      | error e2 =>
        simp at h
        exact h.1 ▸ wait_error L false _ e2 s3 hw2
      | ok u2 =>
        simp only [] at h
        exact ih _ _ _ e sE h

lemma read_byte_error (L : Line) (s : DhtState) (e : DhtError) (sE : DhtState)
    (h : read_byte L s = (Except.error e, sE)) : e = DhtError.timeout :=
  read_byte_aux_error L 8 0 0 s e sE h

/-- `read_byte` never writes a reading log line. -/
lemma read_byte_aux_filter (L : Line) :
    ∀ (fuel n byte : Nat) (s : DhtState),
      ((read_byte_aux L fuel n byte s).2.trace).filter isReadingLog =
        s.trace.filter isReadingLog := by
  intro fuel
  induction fuel with
  | zero => intro n byte s; simp [read_byte_aux]
  | succ f ih =>
    intro n byte s
    simp only [read_byte_aux]
    rcases hw1 : wait_for_state L true s with ⟨r1, s1⟩
    have hf1 : s1.trace.filter isReadingLog = s.trace.filter isReadingLog := by
      have h := wait_filter L true s; rwa [hw1] at h
    cases r1 with
    | error e1 => simpa using hf1
    | ok u1 =>
      simp only []
      rcases hw2 : wait_for_state L false (sampleLine L (emit (Event.delayMicros 30) s1)).2
        with ⟨r2, s3⟩
      have hmid : ((sampleLine L (emit (Event.delayMicros 30) s1)).2.trace).filter isReadingLog
          = s1.trace.filter isReadingLog := by
        simp [sampleLine, emit, List.filter_append, isReadingLog]
      have hf2 : s3.trace.filter isReadingLog = s1.trace.filter isReadingLog := by
        have h := wait_filter L false (sampleLine L (emit (Event.delayMicros 30) s1)).2
        rw [hw2] at h
        exact h.trans hmid
      cases r2 with
      | error e2 => simpa using hf2.trans hf1
      | ok u2 =>
        simp only []
        rw [ih]
        exact hf2.trans hf1

lemma read_byte_filter (L : Line) (s : DhtState) :
    ((read_byte L s).2.trace).filter isReadingLog = s.trace.filter isReadingLog :=
  read_byte_aux_filter L 8 0 0 s

/-- Bytes assembled by `read_byte` are 8-bit values. -/
lemma read_byte_aux_lt (L : Line) :
    ∀ (fuel n byte : Nat) (s : DhtState) (v : Nat) (sF : DhtState),
      byte < 256 → read_byte_aux L fuel n byte s = (Except.ok v, sF) → v < 256 := by
  intro fuel
  induction fuel with
  | zero =>
    intro n byte s v sF hb h
    simp [read_byte_aux] at h
    omega
  | succ f ih =>
    intro n byte s v sF hb h
    simp only [read_byte_aux] at h
    rcases hw1 : wait_for_state L true s with ⟨r1, s1⟩
    rw [hw1] at h
    cases r1 with
    | error e1 => simp at h
    | ok u1 =>
      simp only [] at h
      rcases hw2 : wait_for_state L false (sampleLine L (emit (Event.delayMicros 30) s1)).2
        with ⟨r2, s3⟩
      rw [hw2] at h
      cases r2 with
      | error e2 => simp at h
      | ok u2 =>
        simp only [] at h
        refine ih _ _ _ _ _ ?_ h
        by_cases hbit : (sampleLine L (emit (Event.delayMicros 30) s1)).1
        · simp only [hbit, if_true]
          have hmask : (1 <<< (7 - n % 8)) < 256 := by
            have hk : 7 - n % 8 < 8 := by omega
            have : (1 : Nat) <<< (7 - n % 8) = 2 ^ (7 - n % 8) := by
              simp [Nat.shiftLeft_eq]
            rw [this]
            calc 2 ^ (7 - n % 8) < 2 ^ 8 := Nat.pow_lt_pow_right (by norm_num) hk
              _ = 256 := by norm_num
          have h256 : (256 : Nat) = 2 ^ 8 := by norm_num
          rw [h256] at hb hmask ⊢
          exact Nat.or_lt_two_pow hb hmask
        · simp only [Bool.not_eq_true] at hbit
          simp [hbit, hb]

lemma read_byte_lt (L : Line) (s : DhtState) (v : Nat) (sF : DhtState)
    (h : read_byte L s = (Except.ok v, sF)) : v < 256 :=
  read_byte_aux_lt L 8 0 0 s v sF (by norm_num) h

/-- `read_byte` over one encoded byte returns that byte and consumes 24
samples. -/
lemma read_byte_encoded (L : Line) (i : Nat) (tr : List Event) (b : Nat)
    (hb : b < 256) (hs : samplesAre L i (byteSamples b) = true) :
    read_byte L ⟨i, tr⟩ = (Except.ok b, ⟨i + 24, tr ++ byteEvents b⟩) := by
  have h := read_byte_aux_encoded L (byteBits b) 0 0 i tr hs
  rw [accum_byteBits b hb] at h
  exact h

/-! ### Frame-level lemmas -/

lemma byteSamples_length (b : Nat) : (byteSamples b).length = 24 := rfl

/-- `readFrameBytes` over a canonical frame returns the five bytes in
order, consuming 122 samples: handshake high, handshake low, then the five
encoded bytes. -/
lemma readFrameBytes_frame (L : Line) (i : Nat) (tr : List Event)
    (b0 b1 b2 b3 c : Nat)
    (h0 : b0 < 256) (h1 : b1 < 256) (h2 : b2 < 256) (h3 : b3 < 256) (hc : c < 256)
    (hs : samplesAre L i (frameSamples b0 b1 b2 b3 c) = true) :
    readFrameBytes L ⟨i, tr⟩ =
      (Except.ok (b0, b1, b2, b3, c),
       ⟨i + 122,
        tr ++ [Event.sample true] ++ [Event.sample false] ++ byteEvents b0
          ++ byteEvents b1 ++ byteEvents b2 ++ byteEvents b3 ++ byteEvents c⟩) := by
  rw [show frameSamples b0 b1 b2 b3 c = true :: false ::
    (byteSamples b0 ++ (byteSamples b1 ++ (byteSamples b2 ++ (byteSamples b3 ++ byteSamples c))))
    from rfl] at hs
  obtain ⟨hT, hs⟩ := samplesAre_cons.mp hs
  obtain ⟨hF, hs⟩ := samplesAre_cons.mp hs
  obtain ⟨hs0, hs⟩ := samplesAre_split hs
  rw [byteSamples_length] at hs
  obtain ⟨hs1, hs⟩ := samplesAre_split hs
  rw [byteSamples_length] at hs
  obtain ⟨hs2, hs⟩ := samplesAre_split hs
  rw [byteSamples_length] at hs
  obtain ⟨hs3, hs4⟩ := samplesAre_split hs
  rw [byteSamples_length] at hs4
  have hw1 := wait_hit L true i tr hT
  have hw2 := wait_hit L false (i + 1) (tr ++ [Event.sample true]) hF
  have hb0 := read_byte_encoded L (i + 1 + 1)
    (tr ++ [Event.sample true] ++ [Event.sample false]) b0 h0 hs0
  have hb1 := read_byte_encoded L (i + 1 + 1 + 24)
    (tr ++ [Event.sample true] ++ [Event.sample false] ++ byteEvents b0) b1 h1 hs1
  have hb2 := read_byte_encoded L (i + 1 + 1 + 24 + 24)
    (tr ++ [Event.sample true] ++ [Event.sample false] ++ byteEvents b0
      ++ byteEvents b1) b2 h2 hs2
  have hb3 := read_byte_encoded L (i + 1 + 1 + 24 + 24 + 24)
    (tr ++ [Event.sample true] ++ [Event.sample false] ++ byteEvents b0
      ++ byteEvents b1 ++ byteEvents b2) b3 h3 hs3
  have hb4 := read_byte_encoded L (i + 1 + 1 + 24 + 24 + 24 + 24)
    (tr ++ [Event.sample true] ++ [Event.sample false] ++ byteEvents b0
      ++ byteEvents b1 ++ byteEvents b2 ++ byteEvents b3) c hc hs4
  simp only [readFrameBytes, hw1]
  simp only [hw2]
  simp only [hb0]
  simp only [hb1]
  simp only [hb2]
  simp only [hb3]
  simp only [hb4]

/-- `read_sensor` performs the acquisition phase of `readFrameBytes` after
the start pulse and then validates, converts and logs: its outcome is
determined by the acquisition outcome. -/
lemma read_sensor_matches_frame (L : Line) (s : DhtState) :
    ∃ r sF, readFrameBytes L (startState s) = (r, sF) ∧
      read_sensor L s =
        match r with
        | Except.error e => (Except.error e, sF)
        | Except.ok (b0, b1, b2, b3, ck) =>
          if (((b0 + b1) % 256 + b2) % 256 + b3) % 256 ≠ ck then
            (Except.error DhtError.checksumError,
              emit (Event.logChecksumError ((((b0 + b1) % 256 + b2) % 256 + b3) % 256) ck) sF)
          else
            (Except.ok (),
              emit (Event.logHumidity ((((b0 <<< 8) ||| b1 : Nat) : ℚ) / 10))
                (emit (Event.logTemperature ((((b2 <<< 8) ||| b3 : Nat) : ℚ) / 10)) sF)) := by
  rcases hw1 : wait_for_state L true (startState s) with ⟨r1, s1⟩
  have hw1c : wait_for_state L true (emit (Event.delayMicros 48)
      (emit Event.setHigh (emit (Event.delayMillis 18) (emit Event.setLow s)))) = (r1, s1) := hw1
  cases r1 with
  | error e1 =>
    refine ⟨Except.error e1, s1, ?_, ?_⟩
    · simp only [readFrameBytes]
      simp only [hw1]
    · simp only [read_sensor]
      simp only [hw1c]
  | ok u1 =>
    rcases hw2 : wait_for_state L false s1 with ⟨r2, s2⟩
    cases r2 with
    | error e2 =>
      refine ⟨Except.error e2, s2, ?_, ?_⟩
      · simp only [readFrameBytes]
        simp only [hw1]
        simp only [hw2]
      · simp only [read_sensor]
        simp only [hw1c]
        simp only [hw2]
    | ok u2 =>
      rcases hb0 : read_byte L s2 with ⟨r3, s3⟩
      cases r3 with
      | error e3 =>
        refine ⟨Except.error e3, s3, ?_, ?_⟩
        · simp only [readFrameBytes]
          simp only [hw1]
          simp only [hw2]
          simp only [hb0]
        · simp only [read_sensor]
          simp only [hw1c]
          simp only [hw2]
          simp only [hb0]
      | ok b0 =>
        rcases hb1 : read_byte L s3 with ⟨r4, s4⟩
        cases r4 with
        | error e4 =>
          refine ⟨Except.error e4, s4, ?_, ?_⟩
          · simp only [readFrameBytes]
            simp only [hw1]
            simp only [hw2]
            simp only [hb0]
            simp only [hb1]
          · simp only [read_sensor]
            simp only [hw1c]
            simp only [hw2]
            simp only [hb0]
            simp only [hb1]
        | ok b1 =>
          rcases hb2 : read_byte L s4 with ⟨r5, s5⟩
          cases r5 with
          | error e5 =>
            refine ⟨Except.error e5, s5, ?_, ?_⟩
            · simp only [readFrameBytes]
              simp only [hw1]
              simp only [hw2]
              simp only [hb0]
              simp only [hb1]
              simp only [hb2]
            · simp only [read_sensor]
              simp only [hw1c]
              simp only [hw2]
              simp only [hb0]
              simp only [hb1]
              simp only [hb2]
          | ok b2 =>
            rcases hb3 : read_byte L s5 with ⟨r6, s6⟩
            cases r6 with
            | error e6 =>
              refine ⟨Except.error e6, s6, ?_, ?_⟩
              · simp only [readFrameBytes]
                simp only [hw1]
                simp only [hw2]
                simp only [hb0]
                simp only [hb1]
                simp only [hb2]
                simp only [hb3]
              · simp only [read_sensor]
                simp only [hw1c]
                simp only [hw2]
                simp only [hb0]
                simp only [hb1]
                simp only [hb2]
                simp only [hb3]
            | ok b3 =>
              rcases hb4 : read_byte L s6 with ⟨r7, s7⟩
              cases r7 with
              | error e7 =>
                refine ⟨Except.error e7, s7, ?_, ?_⟩
                · simp only [readFrameBytes]
                  simp only [hw1]
                  simp only [hw2]
                  simp only [hb0]
                  simp only [hb1]
                  simp only [hb2]
                  simp only [hb3]
                  simp only [hb4]
                · simp only [read_sensor]
                  simp only [hw1c]
                  simp only [hw2]
                  simp only [hb0]
                  simp only [hb1]
                  simp only [hb2]
                  simp only [hb3]
                  simp only [hb4]
              | ok ck =>
                refine ⟨Except.ok (b0, b1, b2, b3, ck), s7, ?_, ?_⟩
                · simp only [readFrameBytes]
                  simp only [hw1]
                  simp only [hw2]
                  simp only [hb0]
                  simp only [hb1]
                  simp only [hb2]
                  simp only [hb3]
                  simp only [hb4]
                · simp only [read_sensor]
                  simp only [hw1c]
                  simp only [hw2]
                  simp only [hb0]
                  simp only [hb1]
                  simp only [hb2]
                  simp only [hb3]
                  simp only [hb4]

/-- The acquisition phase writes no reading log line, and its only
possible error is `timeout`. -/
lemma readFrameBytes_inv (L : Line) (s : DhtState) :
    ((readFrameBytes L s).2.trace.filter isReadingLog = s.trace.filter isReadingLog) ∧
    (∀ e sE, readFrameBytes L s = (Except.error e, sE) → e = DhtError.timeout) := by
  unfold readFrameBytes
  cases hw1 : wait_for_state L true s with
  | mk r1 s1 =>
    have hf1 : s1.trace.filter isReadingLog = s.trace.filter isReadingLog := by
      have h := wait_filter L true s; rwa [hw1] at h
    cases r1 with
    | error e1 =>
      refine ⟨hf1, fun e sE h => ?_⟩
      simp only [Prod.mk.injEq, Except.error.injEq] at h
      exact h.1 ▸ wait_error L true s e1 s1 hw1
    | ok u1 =>
      simp only []
      cases hw2 : wait_for_state L false s1 with
      | mk r2 s2 =>
        have hf2 : s2.trace.filter isReadingLog = s.trace.filter isReadingLog := by
          have h := wait_filter L false s1; rw [hw2] at h; exact h.trans hf1
        cases r2 with
        | error e2 =>
          refine ⟨hf2, fun e sE h => ?_⟩
          simp only [Prod.mk.injEq, Except.error.injEq] at h
          exact h.1 ▸ wait_error L false s1 e2 s2 hw2
        | ok u2 =>
          simp only []
          cases hb0 : read_byte L s2 with
          | mk r3 s3 =>
            have hf3 : s3.trace.filter isReadingLog = s.trace.filter isReadingLog := by
              have h := read_byte_filter L s2; rw [hb0] at h; exact h.trans hf2
            cases r3 with
            | error e3 =>
              refine ⟨hf3, fun e sE h => ?_⟩
              simp only [Prod.mk.injEq, Except.error.injEq] at h
              exact h.1 ▸ read_byte_error L s2 e3 s3 hb0
            | ok b0 =>
              simp only []
              cases hb1 : read_byte L s3 with
              | mk r4 s4 =>
                have hf4 : s4.trace.filter isReadingLog = s.trace.filter isReadingLog := by
                  have h := read_byte_filter L s3; rw [hb1] at h; exact h.trans hf3
                cases r4 with
                | error e4 =>
                  refine ⟨hf4, fun e sE h => ?_⟩
                  simp only [Prod.mk.injEq, Except.error.injEq] at h
                  exact h.1 ▸ read_byte_error L s3 e4 s4 hb1
                | ok b1 =>
                  simp only []
                  cases hb2 : read_byte L s4 with
                  | mk r5 s5 =>
                    have hf5 : s5.trace.filter isReadingLog = s.trace.filter isReadingLog := by
                      have h := read_byte_filter L s4; rw [hb2] at h; exact h.trans hf4
                    cases r5 with
                    | error e5 =>
                      refine ⟨hf5, fun e sE h => ?_⟩
                      simp only [Prod.mk.injEq, Except.error.injEq] at h
                      exact h.1 ▸ read_byte_error L s4 e5 s5 hb2
                    | ok b2 =>
                      simp only []
                      cases hb3 : read_byte L s5 with
                      | mk r6 s6 =>
                        have hf6 : s6.trace.filter isReadingLog = s.trace.filter isReadingLog := by
                          have h := read_byte_filter L s5; rw [hb3] at h; exact h.trans hf5
                        cases r6 with
                        | error e6 =>
                          refine ⟨hf6, fun e sE h => ?_⟩
                          simp only [Prod.mk.injEq, Except.error.injEq] at h
                          exact h.1 ▸ read_byte_error L s5 e6 s6 hb3
                        | ok b3 =>
                          simp only []
                          cases hb4 : read_byte L s6 with
                          | mk r7 s7 =>
                            have hf7 : s7.trace.filter isReadingLog =
                                s.trace.filter isReadingLog := by
                              have h := read_byte_filter L s6; rw [hb4] at h
                              exact h.trans hf6
                            cases r7 with
                            | error e7 =>
                              refine ⟨hf7, fun e sE h => ?_⟩
                              simp only [Prod.mk.injEq, Except.error.injEq] at h
                              exact h.1 ▸ read_byte_error L s6 e7 s7 hb4
                            | ok ck =>
                              refine ⟨hf7, fun e sE h => ?_⟩
                              simp at h

/-- The start pulse writes no reading log line. -/
lemma startState_filter (s : DhtState) :
    (startState s).trace.filter isReadingLog = s.trace.filter isReadingLog := by
  simp [startState, emit, List.filter_append, isReadingLog]

/-- The nested wrapping additions equal a single sum modulo 256. -/
lemma wrap_sum_eq (b0 b1 b2 b3 : Nat) :
    (((b0 + b1) % 256 + b2) % 256 + b3) % 256 = (b0 + b1 + b2 + b3) % 256 := by
  omega

lemma byteEvents_filter (b : Nat) : (byteEvents b).filter isReadingLog = [] := by
  simp [byteEvents, byteBits, bitsEvents, isReadingLog]

set_option maxRecDepth 4000 in
lemma testBit7_ge : ∀ b : Nat, b < 256 → b.testBit 7 = true → 128 ≤ b := by decide

set_option maxRecDepth 2000 in
lemma accum_explicit : ∀ b7 b6 b5 b4 b3 b2 b1 b0 : Bool,
    accumBits 0 0 [b7, b6, b5, b4, b3, b2, b1, b0] =
      (if b7 then 128 else 0) + (if b6 then 64 else 0) + (if b5 then 32 else 0)
        + (if b4 then 16 else 0) + (if b3 then 8 else 0) + (if b2 then 4 else 0)
        + (if b1 then 2 else 0) + (if b0 then 1 else 0) := by decide

/-- Combining the high and low byte by shift and or is positional. -/
lemma shift_or_eq_add (b2 b3 : Nat) (h3 : b3 < 256) :
    ((b2 <<< 8) ||| b3) = 256 * b2 + b3 := by
  have h := Nat.mul_add_lt_is_or (i := 8) (show b3 < 2 ^ 8 by simpa using h3) b2
  rw [Nat.shiftLeft_eq, Nat.mul_comm]
  rw [← h]

/-- `read_sensor` over a canonical frame: the wire protocol runs to
completion, then the outcome is decided by the checksum comparison. -/
lemma read_sensor_frame (L : Line) (i : Nat) (tr : List Event) (b0 b1 b2 b3 c : Nat)
    (h0 : b0 < 256) (h1 : b1 < 256) (h2 : b2 < 256) (h3 : b3 < 256) (hc : c < 256)
    (hs : samplesAre L i (frameSamples b0 b1 b2 b3 c) = true) :
    read_sensor L ⟨i, tr⟩ =
      (let sF : DhtState := ⟨i + 122,
        tr ++ [Event.setLow] ++ [Event.delayMillis 18] ++ [Event.setHigh]
          ++ [Event.delayMicros 48] ++ [Event.sample true] ++ [Event.sample false]
          ++ byteEvents b0 ++ byteEvents b1 ++ byteEvents b2 ++ byteEvents b3
          ++ byteEvents c⟩
       if (((b0 + b1) % 256 + b2) % 256 + b3) % 256 ≠ c then
         (Except.error DhtError.checksumError,
           emit (Event.logChecksumError ((((b0 + b1) % 256 + b2) % 256 + b3) % 256) c) sF)
       else
         (Except.ok (),
           emit (Event.logHumidity ((((b0 <<< 8) ||| b1 : Nat) : ℚ) / 10))
             (emit (Event.logTemperature ((((b2 <<< 8) ||| b3 : Nat) : ℚ) / 10)) sF))) := by
  obtain ⟨r, sF, hF, hR⟩ := read_sensor_matches_frame L ⟨i, tr⟩
  have hFr : readFrameBytes L (startState ⟨i, tr⟩) =
      (Except.ok (b0, b1, b2, b3, c),
       ⟨i + 122,
        tr ++ [Event.setLow] ++ [Event.delayMillis 18] ++ [Event.setHigh]
          ++ [Event.delayMicros 48] ++ [Event.sample true] ++ [Event.sample false]
          ++ byteEvents b0 ++ byteEvents b1 ++ byteEvents b2 ++ byteEvents b3
          ++ byteEvents c⟩) :=
    readFrameBytes_frame L i
      (tr ++ [Event.setLow] ++ [Event.delayMillis 18] ++ [Event.setHigh]
        ++ [Event.delayMicros 48]) b0 b1 b2 b3 c h0 h1 h2 h3 hc hs
  rw [hFr] at hF
  rw [Prod.mk.injEq] at hF
  obtain ⟨hr, hsF⟩ := hF
  subst hr
  subst hsF
  exact hR

/-! ### Claim theorems -/

/-- C1: for every quintuple of bytes whose checksum byte equals the sum of
the four data bytes modulo 256, `read_sensor` over a line producing exactly
that bit sequence succeeds, and the reading it emits has
`humidity_percent = ((b0<<8)|b1)/10` and
`temperature_celsius = ((b2<<8)|b3)/10`. -/
theorem c1_valid_frame_decodes (b0 b1 b2 b3 c : Nat)
    (h0 : b0 < 256) (h1 : b1 < 256) (h2 : b2 < 256) (h3 : b3 < 256)
    (hc : c = (b0 + b1 + b2 + b3) % 256)
    (L : Line) (hL : samplesAre L 0 (frameSamples b0 b1 b2 b3 c) = true) :
    (read_sensor L ⟨0, []⟩).1 = Except.ok () ∧
    (read_sensor L ⟨0, []⟩).2.trace.filter isReadingLog =
      [Event.logTemperature ((((b2 <<< 8) ||| b3 : Nat) : ℚ) / 10),
       Event.logHumidity ((((b0 <<< 8) ||| b1 : Nat) : ℚ) / 10)] := by
  have hcLt : c < 256 := by rw [hc]; exact Nat.mod_lt _ (by norm_num)
  have hframe := read_sensor_frame L 0 [] b0 b1 b2 b3 c h0 h1 h2 h3 hcLt hL
  have hEq : (((b0 + b1) % 256 + b2) % 256 + b3) % 256 = c := by
    rw [wrap_sum_eq, ← hc]
  simp only [hEq, ne_eq, not_true_eq_false, if_neg, not_false_eq_true,
    ite_false] at hframe
  rw [hframe]
  constructor
  · rfl
  · simp [emit, List.filter_append, byteEvents_filter, isReadingLog]

/-- C2: `read_sensor` fails with the checksum error exactly when the five
bytes were received and the checksum byte differs from the wrapping 8-bit
sum of the four data bytes; on that failure no reading is logged. -/
theorem c2_checksum_mismatch_iff (L : Line) (s : DhtState) :
    ((read_sensor L s).1 = Except.error DhtError.checksumError ↔
      ∃ b0 b1 b2 b3 ck sF,
        readFrameBytes L (startState s) = (Except.ok (b0, b1, b2, b3, ck), sF) ∧
        (b0 + b1 + b2 + b3) % 256 ≠ ck) ∧
    ((read_sensor L s).1 = Except.error DhtError.checksumError →
      (read_sensor L s).2.trace.filter isReadingLog = s.trace.filter isReadingLog) := by
  obtain ⟨r, sF, hF, hR⟩ := read_sensor_matches_frame L s
  have hinv := readFrameBytes_inv L (startState s)
  cases r with
  | error e =>
    have he : e = DhtError.timeout := hinv.2 e sF hF
    simp only [] at hR
    subst he
    constructor
    · constructor
      · intro h
        rw [hR] at h
        simp at h
      · rintro ⟨b0, b1, b2, b3, ck, sF2, hok, _⟩
        rw [hF] at hok
        simp at hok
    · intro h
      rw [hR] at h
      simp at h
  | ok tup =>
    obtain ⟨b0, b1, b2, b3, ck⟩ := tup
    simp only [] at hR
    by_cases hck : (((b0 + b1) % 256 + b2) % 256 + b3) % 256 ≠ ck
    · rw [if_pos hck] at hR
      have hne : (b0 + b1 + b2 + b3) % 256 ≠ ck := by rwa [wrap_sum_eq] at hck
      have h1 : sF.trace.filter isReadingLog = s.trace.filter isReadingLog := by
        have h2 := hinv.1
        rw [hF] at h2
        exact h2.trans (startState_filter s)
      constructor
      · constructor
        · intro _
          exact ⟨b0, b1, b2, b3, ck, sF, hF, hne⟩
        · intro _
          rw [hR]
      · intro _
        rw [hR]
        simp only [emit]
        rw [List.filter_append]
        simp [isReadingLog, h1]
    · rw [if_neg hck] at hR
      have heq : (b0 + b1 + b2 + b3) % 256 = ck := by
        rw [← wrap_sum_eq]
        exact not_ne_iff.mp hck
      constructor
      · constructor
        · intro h
          rw [hR] at h
          simp at h
        · rintro ⟨b0x, b1x, b2x, b3x, ckx, sFx, hok, hne⟩
          rw [hF] at hok
          simp only [Prod.mk.injEq, Except.ok.injEq] at hok
          obtain ⟨⟨e0, e1, e2, e3, e4⟩, _⟩ := hok
          rw [← e0, ← e1, ← e2, ← e3, ← e4] at hne
          exact absurd heq hne
      · intro h
        rw [hR] at h
        simp at h

/-- C3: `read_byte` reads 8 bits most-significant first: per bit it waits
for the rise, sleeps the 30 μs offset, samples the value, and waits for the
fall; the byte is the 8 sampled values at positions 7 down to 0. -/
theorem c3_read_byte_msb_first (L : Line) (i : Nat) (tr : List Event)
    (b7 b6 b5 b4 b3 b2 b1 b0 : Bool)
    (hs : samplesAre L i (encodeBits [b7, b6, b5, b4, b3, b2, b1, b0]) = true) :
    read_byte L ⟨i, tr⟩ =
      (Except.ok ((if b7 then 128 else 0) + (if b6 then 64 else 0) + (if b5 then 32 else 0)
        + (if b4 then 16 else 0) + (if b3 then 8 else 0) + (if b2 then 4 else 0)
        + (if b1 then 2 else 0) + (if b0 then 1 else 0)),
       ⟨i + 24, tr ++ bitsEvents [b7, b6, b5, b4, b3, b2, b1, b0]⟩) := by
  have h := read_byte_aux_encoded L [b7, b6, b5, b4, b3, b2, b1, b0] 0 0 i tr hs
  rw [accum_explicit] at h
  exact h

/-- C4: `wait_for_state` polls at most 10,000 times, sleeping 1 μs after
each failed check; it succeeds as soon as the line reads the target level,
and times out exactly when all 10,000 checks fail. -/
theorem c4_wait_bounded_poll (L : Line) (target : Bool) (i : Nat) (tr : List Event) :
    (∀ k, k < 10000 → (∀ j, j < k → L (i + j) ≠ target) → L (i + k) = target →
      wait_for_state L target ⟨i, tr⟩ =
        (Except.ok (), ⟨i + k + 1, tr ++ missEvents target k ++ [Event.sample target]⟩)) ∧
    ((∀ j, j < 10000 → L (i + j) ≠ target) →
      wait_for_state L target ⟨i, tr⟩ =
        (Except.error DhtError.timeout, ⟨i + 10000, tr ++ missEvents target 10000⟩)) :=
  ⟨fun k hk hmiss hhit => wait_aux_success L target 10000 k i tr hk hmiss hhit,
   fun hmiss => wait_aux_timeout L target 10000 i tr hmiss⟩

/-- C5: `read_sensor` performs the wire protocol in order: drive low and
hold 18 ms, release high and hold 48 μs, see the line high then low, then
read the five bytes in order (humidity high, humidity low, temperature
high, temperature low, checksum). -/
theorem c5_wire_protocol_order (L : Line) (i : Nat) (tr : List Event) (b0 b1 b2 b3 c : Nat)
    (h0 : b0 < 256) (h1 : b1 < 256) (h2 : b2 < 256) (h3 : b3 < 256) (hc : c < 256)
    (hs : samplesAre L i (frameSamples b0 b1 b2 b3 c) = true) :
    ∃ rest, (read_sensor L ⟨i, tr⟩).2.trace =
      tr ++ [Event.setLow, Event.delayMillis 18, Event.setHigh, Event.delayMicros 48]
        ++ [Event.sample true] ++ [Event.sample false]
        ++ byteEvents b0 ++ byteEvents b1 ++ byteEvents b2 ++ byteEvents b3
        ++ byteEvents c ++ rest := by
  have hframe := read_sensor_frame L i tr b0 b1 b2 b3 c h0 h1 h2 h3 hc hs
  by_cases hck : (((b0 + b1) % 256 + b2) % 256 + b3) % 256 ≠ c
  · refine ⟨[Event.logChecksumError ((((b0 + b1) % 256 + b2) % 256 + b3) % 256) c], ?_⟩
    rw [hframe]
    have hck2 : (b0 + b1 + b2 + b3) % 256 ≠ c := by rwa [wrap_sum_eq] at hck
    simp [hck, hck2, emit, List.append_assoc]
  · refine ⟨[Event.logTemperature ((((b2 <<< 8) ||| b3 : Nat) : ℚ) / 10),
      Event.logHumidity ((((b0 <<< 8) ||| b1 : Nat) : ℚ) / 10)], ?_⟩
    rw [hframe]
    rw [not_ne_iff] at hck
    have hck2 : (b0 + b1 + b2 + b3) % 256 = c := by rwa [wrap_sum_eq] at hck
    simp [hck, hck2, emit, List.append_assoc]

/-- C6: the temperature conversion is unsigned: when the top bit of the
temperature high byte is set, the decoded value is the large positive
number `((b2<<8)|b3)/10`, at least 3276.8 and never negative. -/
theorem c6_unsigned_temperature (b0 b1 b2 b3 : Nat)
    (h0 : b0 < 256) (h1 : b1 < 256) (h2 : b2 < 256) (h3 : b3 < 256)
    (hsign : b2.testBit 7 = true) (L : Line) (i : Nat) (tr : List Event)
    (hs : samplesAre L i
      (frameSamples b0 b1 b2 b3 ((b0 + b1 + b2 + b3) % 256)) = true) :
    ∃ sF, read_sensor L ⟨i, tr⟩ = (Except.ok (), sF) ∧
      Event.logTemperature ((((b2 <<< 8) ||| b3 : Nat) : ℚ) / 10) ∈ sF.trace ∧
      (32768 : ℚ) / 10 ≤ (((b2 <<< 8) ||| b3 : Nat) : ℚ) / 10 ∧
      0 < (((b2 <<< 8) ||| b3 : Nat) : ℚ) / 10 := by
  have hcLt : (b0 + b1 + b2 + b3) % 256 < 256 := Nat.mod_lt _ (by norm_num)
  have hframe := read_sensor_frame L i tr b0 b1 b2 b3 ((b0 + b1 + b2 + b3) % 256)
    h0 h1 h2 h3 hcLt hs
  have hEq : (((b0 + b1) % 256 + b2) % 256 + b3) % 256 = (b0 + b1 + b2 + b3) % 256 :=
    wrap_sum_eq b0 b1 b2 b3
  simp only [hEq, ne_eq, not_true_eq_false, if_neg, not_false_eq_true,
    ite_false] at hframe
  have hvalNat : (32768 : Nat) ≤ ((b2 <<< 8) ||| b3) := by
    rw [shift_or_eq_add b2 b3 h3]
    have := testBit7_ge b2 h2 hsign
    omega
  have hvalQ : (32768 : ℚ) ≤ (((b2 <<< 8) ||| b3 : Nat) : ℚ) := by
    exact_mod_cast hvalNat
  refine ⟨_, hframe, ?_, ?_, ?_⟩
  · simp [emit, List.mem_append]
  · linarith
  · linarith

/-- C7: if any handshake wait or byte read of the acquisition phase fails,
`read_sensor` aborts at once with exactly that outcome, the error is
`timeout`, and no reading is logged. -/
theorem c7_timeout_aborts (L : Line) (s : DhtState) (e : DhtError) (sE : DhtState)
    (h : readFrameBytes L (startState s) = (Except.error e, sE)) :
    read_sensor L s = (Except.error e, sE) ∧ e = DhtError.timeout ∧
    sE.trace.filter isReadingLog = s.trace.filter isReadingLog := by
  obtain ⟨r, sF, hF, hR⟩ := read_sensor_matches_frame L s
  rw [h] at hF
  rw [Prod.mk.injEq] at hF
  obtain ⟨hr, hsF⟩ := hF
  subst hr
  subst hsF
  simp only [] at hR
  refine ⟨hR, readFrameBytes_inv L (startState s) |>.2 e sE h, ?_⟩
  have h2 := (readFrameBytes_inv L (startState s)).1
  rw [h] at h2
  exact h2.trans (startState_filter s)

/-- C8: on success `read_sensor` returns only the unit value; the converted
humidity and temperature appear solely as log lines emitted inside
`read_sensor`, and the read loop's success arm adds no report of its own. -/
theorem c8_success_carries_no_reading (L : Line) (s : DhtState) :
    (∀ r sF, read_sensor L s = (Except.ok r, sF) → r = ()) ∧
    (∀ r sF, read_sensor L (emit (Event.delayMillis 2000) s) = (Except.ok r, sF) →
      loop_iter L s = emit Event.netPoll sF) ∧
    (∀ r sF, read_sensor L s = (Except.ok r, sF) →
      ∃ t h, sF.trace.filter isReadingLog =
        s.trace.filter isReadingLog ++ [Event.logTemperature t, Event.logHumidity h]) := by
  refine ⟨fun r sF _ => rfl, fun r sF h => ?_, fun r sF h => ?_⟩
  · simp only [loop_iter, h]
  · obtain ⟨rr, sF2, hF, hR⟩ := read_sensor_matches_frame L s
    have hinv := readFrameBytes_inv L (startState s)
    cases rr with
    | error e =>
      simp only [] at hR
      rw [hR] at h
      simp at h
    | ok tup =>
      obtain ⟨b0, b1, b2, b3, ck⟩ := tup
      simp only [] at hR
      by_cases hck : (((b0 + b1) % 256 + b2) % 256 + b3) % 256 ≠ ck
      · rw [if_pos hck] at hR
        rw [hR] at h
        simp at h
      · rw [if_neg hck] at hR
        rw [hR] at h
        rw [Prod.mk.injEq] at h
        obtain ⟨_, hsf⟩ := h
        refine ⟨(((b2 <<< 8) ||| b3 : Nat) : ℚ) / 10, (((b0 <<< 8) ||| b1 : Nat) : ℚ) / 10, ?_⟩
        have h1 : sF2.trace.filter isReadingLog = s.trace.filter isReadingLog := by
          have h2 := hinv.1
          rw [hF] at h2
          exact h2.trans (startState_filter s)
        rw [← hsf]
        simp [emit, List.filter_append, isReadingLog, h1]

/-- C9: the read loop runs forever: iteration `n+1` always applies the loop
body to the state of iteration `n`, and each body sleeps 2000 ms, invokes
`read_sensor`, logs the error kind on failure, and continues regardless of
the outcome. -/
theorem c9_loop_runs_forever (L : Line) (s : DhtState) (n : Nat) :
    read_loop L s (n + 1) = loop_iter L (read_loop L s n) ∧
    ∀ st : DhtState, ∃ r s2,
      read_sensor L (emit (Event.delayMillis 2000) st) = (r, s2) ∧
      loop_iter L st = emit Event.netPoll
        (match r with
         | Except.ok _ => s2
         | Except.error e => emit (Event.logReadingFailed e) s2) := by
  refine ⟨rfl, fun st => ?_⟩
  rcases hRS : read_sensor L (emit (Event.delayMillis 2000) st) with ⟨r, s2⟩
  refine ⟨r, s2, rfl, ?_⟩
  cases r with
  | error e => simp only [loop_iter, hRS]
  | ok u => simp only [loop_iter, hRS]

/-- C10: decoding is deterministic: two runs of `read_sensor` against the
same observed sequence of line levels produce the same outcome. -/
theorem c10_deterministic (L1 L2 : Line) (s : DhtState) (h : ∀ j, L1 j = L2 j) :
    read_sensor L1 s = read_sensor L2 s := by
  have hL : L1 = L2 := funext h
  rw [hL]

/-! ### Witnesses -/

/-- Witness for C1 at the spec's example frame: humidity 65.0, temperature
26.1. -/
theorem c1_witness :
    (read_sensor goodLine ⟨0, []⟩).1 = Except.ok () ∧
    (read_sensor goodLine ⟨0, []⟩).2.trace.filter isReadingLog =
      [Event.logTemperature ((261 : ℚ) / 10), Event.logHumidity (65 : ℚ)] := by
  have h := c1_valid_frame_decodes 2 138 1 5 146 (by norm_num) (by norm_num) (by norm_num)
    (by norm_num) (by norm_num) goodLine (by decide)
  refine ⟨h.1, ?_⟩
  rw [h.2]
  rw [show ((1 <<< 8) ||| 5 : Nat) = 261 from rfl]
  rw [show ((2 <<< 8) ||| 138 : Nat) = 650 from rfl]
  norm_num

/-- Witness for C2 at the spec's mismatch example (checksum byte 0x93). -/
theorem c2_witness :
    (read_sensor badLine ⟨0, []⟩).1 = Except.error DhtError.checksumError ∧
    (read_sensor badLine ⟨0, []⟩).2.trace.filter isReadingLog =
      (⟨0, []⟩ : DhtState).trace.filter isReadingLog := by
  have hiff := c2_checksum_mismatch_iff badLine ⟨0, []⟩
  have hcs : (read_sensor badLine ⟨0, []⟩).1 = Except.error DhtError.checksumError :=
    hiff.1.mpr ⟨2, 138, 1, 5, 147, (readFrameBytes badLine (startState ⟨0, []⟩)).2,
      rfl, by decide⟩
  exact ⟨hcs, hiff.2 hcs⟩

/-- Witness for C3 at the byte 0xA5 (bits 1 0 1 0 0 1 0 1). -/
theorem c3_witness :
    read_byte (lineOf (encodeBits [true, false, true, false, false, true, false, true]))
      ⟨0, []⟩ =
      (Except.ok 165,
       ⟨24, bitsEvents [true, false, true, false, false, true, false, true]⟩) :=
  c3_read_byte_msb_first
    (lineOf (encodeBits [true, false, true, false, false, true, false, true])) 0 []
    true false true false false true false true (by decide)

/-- Witness for C4: a line that rises at the third poll, and a line that
never rises. -/
theorem c4_witness :
    wait_for_state (fun j => decide (2 ≤ j)) true ⟨0, []⟩ =
      (Except.ok (), ⟨3, [] ++ missEvents true 2 ++ [Event.sample true]⟩) ∧
    wait_for_state (fun _ => false) true ⟨0, []⟩ =
      (Except.error DhtError.timeout, ⟨10000, [] ++ missEvents true 10000⟩) := by
  constructor
  · exact (c4_wait_bounded_poll (fun j => decide (2 ≤ j)) true 0 []).1 2 (by norm_num)
      (by decide) (by decide)
  · exact (c4_wait_bounded_poll (fun _ => false) true 0 []).2 (fun j hj => by simp)

/-- Witness for C5 at the spec's example frame. -/
theorem c5_witness :
    ∃ rest, (read_sensor goodLine ⟨0, []⟩).2.trace =
      [] ++ [Event.setLow, Event.delayMillis 18, Event.setHigh, Event.delayMicros 48]
        ++ [Event.sample true] ++ [Event.sample false] ++ byteEvents 2 ++ byteEvents 138
        ++ byteEvents 1 ++ byteEvents 5 ++ byteEvents 146 ++ rest :=
  c5_wire_protocol_order goodLine 0 [] 2 138 1 5 146 (by norm_num) (by norm_num)
    (by norm_num) (by norm_num) (by norm_num) (by decide)

/-- Witness for C6 at the frame 0x00 0x00 0x80 0x00 (checksum 0x80): the
sign bit of the temperature high byte is set, and the decoded value is
3276.8, not a negative reading. -/
theorem c6_witness :
    ∃ sF, read_sensor (lineOf (frameSamples 0 0 128 0 128)) ⟨0, []⟩ =
        (Except.ok (), sF) ∧
      Event.logTemperature ((((128 <<< 8) ||| 0 : Nat) : ℚ) / 10) ∈ sF.trace ∧
      (32768 : ℚ) / 10 ≤ (((128 <<< 8) ||| 0 : Nat) : ℚ) / 10 ∧
      0 < (((128 <<< 8) ||| 0 : Nat) : ℚ) / 10 :=
  c6_unsigned_temperature 0 0 128 0 (by norm_num) (by norm_num) (by norm_num) (by norm_num)
    (by decide) (lineOf (frameSamples 0 0 128 0 128)) 0 [] (by decide)

/-- Witness for C7 at a line that never rises: the first handshake wait
times out after its full budget and the read aborts. -/
theorem c7_witness :
    read_sensor (fun _ => false) ⟨0, []⟩ =
      (Except.error DhtError.timeout,
       ⟨10000, [Event.setLow, Event.delayMillis 18, Event.setHigh, Event.delayMicros 48]
         ++ missEvents true 10000⟩) ∧
    DhtError.timeout = DhtError.timeout ∧
    (⟨10000, [Event.setLow, Event.delayMillis 18, Event.setHigh, Event.delayMicros 48]
       ++ missEvents true 10000⟩ : DhtState).trace.filter isReadingLog =
      (⟨0, []⟩ : DhtState).trace.filter isReadingLog := by
  have hw : wait_for_state (fun _ => false) true (startState ⟨0, []⟩) =
      (Except.error DhtError.timeout,
       ⟨10000, [Event.setLow, Event.delayMillis 18, Event.setHigh, Event.delayMicros 48]
         ++ missEvents true 10000⟩) :=
    wait_aux_timeout (fun _ => false) true 10000 0
      [Event.setLow, Event.delayMillis 18, Event.setHigh, Event.delayMicros 48]
      (fun j hj => by simp)
  have hfb : readFrameBytes (fun _ => false) (startState ⟨0, []⟩) =
      (Except.error DhtError.timeout,
       ⟨10000, [Event.setLow, Event.delayMillis 18, Event.setHigh, Event.delayMicros 48]
         ++ missEvents true 10000⟩) := by
    simp only [readFrameBytes]
    simp only [hw]
  exact c7_timeout_aborts (fun _ => false) ⟨0, []⟩ DhtError.timeout _ hfb

/-- Witness for C8 at the spec's example frame. -/
theorem c8_witness :
    (() : Unit) = () ∧
    loop_iter goodLine ⟨0, []⟩ =
      emit Event.netPoll (read_sensor goodLine (emit (Event.delayMillis 2000) ⟨0, []⟩)).2 ∧
    ∃ t h, (read_sensor goodLine ⟨0, []⟩).2.trace.filter isReadingLog =
      (⟨0, []⟩ : DhtState).trace.filter isReadingLog
        ++ [Event.logTemperature t, Event.logHumidity h] := by
  refine ⟨?_, ?_, ?_⟩
  · exact (c8_success_carries_no_reading goodLine ⟨0, []⟩).1 ()
      (read_sensor goodLine ⟨0, []⟩).2 rfl
  · exact (c8_success_carries_no_reading goodLine ⟨0, []⟩).2.1 ()
      (read_sensor goodLine (emit (Event.delayMillis 2000) ⟨0, []⟩)).2 rfl
  · exact (c8_success_carries_no_reading goodLine ⟨0, []⟩).2.2 ()
      (read_sensor goodLine ⟨0, []⟩).2 rfl

/-- Witness for C10: two syntactically different but pointwise equal lines
decode identically. -/
theorem c10_witness :
    read_sensor (fun _ => false) ⟨0, []⟩ = read_sensor (fun j => decide (j < 0)) ⟨0, []⟩ :=
  c10_deterministic (fun _ => false) (fun j => decide (j < 0)) ⟨0, []⟩
    (fun j => by simp)

end Foat
